import Mathlib

/-!
Verification development for the AI Financial Planning Assistant.

The repository ships a React frontend (services/api.js and the page
components) together with a specification of the backend Financial
Analysis & Advisory Engine; the backend itself is not present in the
repository, so the engine components (categorizer, analyzer, scorer,
planner, retriever, chat advisor) are modelled here from the
specification, while the frontend API client and pages are embedded
from their JavaScript sources.
-/

namespace FinAssist

/-- Modelled from the spec: the closed category taxonomy of section 3
(Housing, Food and Dining, Transportation, Utilities, Entertainment,
Shopping, Personal Care, Income, Other). -/
inductive CategoryLabel where
  | housing
  | food
  | transportation
  | utilities
  | entertainment
  | shopping
  | personalCare
  | income
  | other
deriving DecidableEq, Repr

/-- Display names of the category labels, as they appear in the spec
and in the sample CSV of the setup guide. -/
def categoryName : CategoryLabel → String
  | .housing => "Housing"
  | .food => "Food & Dining"
  | .transportation => "Transportation"
  | .utilities => "Utilities"
  | .entertainment => "Entertainment"
  | .shopping => "Shopping"
  | .personalCare => "Personal Care"
  | .income => "Income"
  | .other => "Other"

/-- The full enumeration of category labels, in a fixed order. -/
def allLabels : List CategoryLabel :=
  [.housing, .food, .transportation, .utilities, .entertainment,
   .shopping, .personalCare, .income, .other]

/-- Modelled from the spec: a transaction row (section 3): date,
free-text description, signed decimal amount (negative = expense,
positive = income), and a category that is nullable until
categorized. -/
structure Transaction where
  date : String
  description : String
  amount : ℚ
  category : Option CategoryLabel
deriving DecidableEq, Repr

/-- Boolean substring test on character lists, used for the keyword
rule match of the categorizer. -/
def hasSub : List Char → List Char → Bool
  | hay, needle =>
    match hay with
    | [] => needle.isEmpty
    | _ :: t => needle.isPrefixOf hay || hasSub t needle

/-- Modelled from the spec: description normalization (section 4.1):
case-fold and strip punctuation and whitespace, keeping only
alphanumeric characters. -/
def normalize (s : String) : List Char :=
  s.toLower.data.filter Char.isAlphanum

/-- Modelled from the spec: the ordered keyword-to-category rule table
(section 4.1 and section 9); the concrete contents are a documented
design choice, populated from the examples in the spec and the sample
CSV of the setup guide. First matching rule wins. -/
def rules : List (String × CategoryLabel) :=
  [("rent", .housing),
   ("mortgage", .housing),
   ("grocery", .food),
   ("starbucks", .food),
   ("restaurant", .food),
   ("electric", .utilities),
   ("netflix", .entertainment),
   ("amazon", .shopping),
   ("gym", .personalCare),
   ("gas", .transportation),
   ("insurance", .transportation),
   ("salary", .income)]

/-- First rule whose keyword occurs in the normalized description. -/
def findRule (norm : List Char) : Option CategoryLabel :=
  (rules.find? (fun r => hasSub norm r.1.data)).map (·.2)

/-- Modelled from the spec: the label derived for one transaction
(section 4.1): keyword rule first, then positive amount means Income,
then the language-model classification capability (a black-box pure
function into the closed label set, None modelling both no-match and a
capability failure), else Other. -/
def deriveLabel (llm : List Char → Option CategoryLabel) (t : Transaction) :
    CategoryLabel :=
  match findRule (normalize t.description) with
  | some c => c
  | none =>
    if 0 < t.amount then .income
    else
      match llm (normalize t.description) with
      | some c => c
      | none => .other

/-- Categorize one transaction: replace its category by the derived
label, leaving all other fields unchanged. -/
def categorizeOne (llm : List Char → Option CategoryLabel)
    (t : Transaction) : Transaction :=
  { t with category := some (deriveLabel llm t) }

/-- Modelled from the spec: the batch categorizer (section 4.1): apply
the per-row categorization to every row, keeping order. -/
def categorize (llm : List Char → Option CategoryLabel)
    (ts : List Transaction) : List Transaction :=
  ts.map (categorizeOne llm)

/-- Clamp a rational to the interval from 0 to 100, as required of
every sub-score by the spec (section 4.3). -/
def clamp (x : ℚ) : ℚ := min 100 (max 0 x)

namespace Scorer

/-- Modelled from the spec: savings-rate sub-score (section 4.3):
(income - expenses) / income scaled so that a 20 percent savings rate
or more gives 100, zero or negative gives 0, linear in between; zero
income is the defined edge case giving sub-score 0. -/
def savingsRateScore (income expenses : ℚ) : ℚ :=
  if income = 0 then 0 else clamp ((income - expenses) / income * 500)

/-- Modelled from the spec: debt-to-income sub-score (section 4.3):
inverse-linear, debt ratio 0 gives 100 and ratio at least 0.5 gives 0;
zero income gives the sentinel sub-score 0. -/
def debtScore (income debt : ℚ) : ℚ :=
  if income = 0 then 0 else clamp (100 - debt / income * 200)

/-- Modelled from the spec: emergency-fund sub-score (section 4.3):
linear in months covered, 6 months gives 100, 0 months gives 0, capped
at 100 beyond 6 months. -/
def emergencyScore (months : ℚ) : ℚ :=
  clamp (months * 100 / 6)

/-- Modelled from the spec: spending-discipline sub-score (section
4.3): 1 - expenses / income scaled like the savings rate but with a
gentler curve (full score at a 30 percent margin); zero income gives
the sentinel sub-score 0. -/
def disciplineScore (income expenses : ℚ) : ℚ :=
  if income = 0 then 0
  else clamp ((1 - expenses / income) * 1000 / 3)

/-- Modelled from the spec: a health-score report (section 3): an
integer score, named sub-scores, and ordered recommendation strings. -/
structure HealthScoreReport where
  score : ℤ
  breakdown : List (String × ℚ)
  recommendations : List String
deriving DecidableEq, Repr

/-- The four named sub-scores of the breakdown. -/
def breakdownOf (income expenses debt months : ℚ) : List (String × ℚ) :=
  [("savings_rate", savingsRateScore income expenses),
   ("debt_to_income", debtScore income debt),
   ("emergency_fund", emergencyScore months),
   ("spending_discipline", disciplineScore income expenses)]

/-- Ordering of breakdown entries by ascending sub-score, used so the
weakest area appears first among the recommendations. -/
def recRank (a b : String × ℚ) : Prop := a.2 ≤ b.2

instance : DecidableRel recRank := fun a b =>
  inferInstanceAs (Decidable (a.2 ≤ b.2))

/-- Modelled from the spec: rule-generated recommendations (section
4.3): each sub-score below 50 contributes one templated string,
ordered by ascending sub-score. -/
def recommendationsOf (income expenses debt months : ℚ) : List String :=
  ((breakdownOf income expenses debt months).filter
      (fun p => decide (p.2 < 50))
    |>.insertionSort recRank
    |>.map (fun p => "Improve your " ++ p.1))

/-- Modelled from the spec: the composite health score operation
(section 4.3): the weighted average of the four clamped sub-scores with
fixed documented weights 0.3, 0.25, 0.25, 0.2 (summing to 1), rounded
to the nearest integer. The savings input participates in the contract
but no sub-score formula of the spec consumes it. -/
def score (income expenses savings debt months : ℚ) : HealthScoreReport :=
  let s1 := savingsRateScore income expenses
  let s2 := debtScore income debt
  let s3 := emergencyScore months
  let s4 := disciplineScore income expenses
  let _ := savings
  { score := round (3/10 * s1 + 1/4 * s2 + 1/4 * s3 + 1/5 * s4)
    breakdown := breakdownOf income expenses debt months
    recommendations := recommendationsOf income expenses debt months }

end Scorer

namespace Planner

/-- Modelled from the spec: a savings goal (section 3): identity,
name, positive target amount, non-negative current amount, and a
deadline; the deadline is modelled as a month index so that months
remaining is the difference from the current month (it may be past,
meaning overdue). -/
structure Goal where
  id : ℕ
  name : String
  target_amount : ℚ
  current_amount : ℚ
  deadline : ℤ
deriving DecidableEq, Repr

/-- Months remaining until the goal's deadline, measured from the
current month; overdue goals give a non-positive value. -/
def monthsRemaining (now : ℤ) (g : Goal) : ℤ := g.deadline - now

/-- The gap still to save: target minus current, with overshoot
clamped to zero for planning purposes (section 3). -/
def gap (g : Goal) : ℚ := max (g.target_amount - g.current_amount) 0

/-- Modelled from the spec: required monthly amount (section 4.4):
gap divided by max(months_remaining, 1); overdue goals are treated as
one month remaining. -/
def requiredMonthly (now : ℤ) (g : Goal) : ℚ :=
  gap g / ((max (monthsRemaining now g) 1 : ℤ) : ℚ)

/-- Modelled from the spec: urgency = 1 / max(months_remaining, 1)
(section 4.4). -/
def urgency (now : ℤ) (g : Goal) : ℚ :=
  1 / ((max (monthsRemaining now g) 1 : ℤ) : ℚ)

/-- Modelled from the spec: gap ratio (target - current) / target,
clamped to the unit interval (section 4.4). -/
def gapRatio (g : Goal) : ℚ :=
  min 1 (max 0 ((g.target_amount - g.current_amount) / g.target_amount))

/-- Modelled from the spec: priority score = urgency times gap ratio
(section 4.4). -/
def priorityScore (now : ℤ) (g : Goal) : ℚ :=
  urgency now g * gapRatio g

/-- Modelled from the spec: the priority order (section 4.4):
descending priority score, ties by earlier deadline, then by goal id
for full determinism. -/
def goalRank (now : ℤ) (a b : Goal) : Prop :=
  priorityScore now b < priorityScore now a ∨
    (priorityScore now a = priorityScore now b ∧
      (a.deadline < b.deadline ∨ (a.deadline = b.deadline ∧ a.id ≤ b.id)))

instance (now : ℤ) : DecidableRel (goalRank now) := fun a b =>
  inferInstanceAs (Decidable (_ ∨ _))

/-- A goal as returned by the planner: the goal together with its
derived priority score and recommended monthly contribution. -/
structure PlannedGoal where
  goal : Goal
  priority_score : ℚ
  recommended_monthly_contribution : ℚ
deriving DecidableEq, Repr

/-- Modelled from the spec: the greedy water-fill allocation (section
4.4): each goal in order receives min(required_monthly_amount,
remaining_budget) and the remaining budget decreases accordingly. -/
def allocate (now : ℤ) : List Goal → ℚ → List PlannedGoal
  | [], _ => []
  | g :: gs, budget =>
    let c := min (requiredMonthly now g) budget
    ⟨g, priorityScore now g, c⟩ :: allocate now gs (budget - c)

/-- Modelled from the spec: the plan operation (section 4.4): sort the
goals into priority order, then run the greedy allocation against the
available monthly savings. -/
def plan (now : ℤ) (goals : List Goal)
    (available_monthly_savings : ℚ) : List PlannedGoal :=
  allocate now (goals.insertionSort (goalRank now)) available_monthly_savings

end Planner

namespace Analyzer

/-- The category used when aggregating a transaction: its label, with
a still-null category falling into the Other bucket, matching the
taxonomy invariant that unmatched rows map to Other and never to null
(section 3). -/
def catOf (t : Transaction) : CategoryLabel := t.category.getD .other

/-- A transaction counts as spending when its amount is negative
(section 3: negative = expense). -/
def isExpense (t : Transaction) : Bool := decide (t.amount < 0)

/-- Modelled from the spec: total_spent = sum of absolute values of
the negative amounts (section 3). -/
def totalSpent (ts : List Transaction) : ℚ :=
  ((ts.filter isExpense).map (fun t => -t.amount)).sum

/-- Modelled from the spec: total_income = sum of the positive amounts
(section 3). -/
def totalIncome (ts : List Transaction) : ℚ :=
  ((ts.filter (fun t => decide (0 < t.amount))).map (fun t => t.amount)).sum

/-- Absolute spend aggregated into one category's bucket. -/
def spentIn (ts : List Transaction) (c : CategoryLabel) : ℚ :=
  ((ts.filter (fun t => isExpense t && decide (catOf t = c))).map
      (fun t => -t.amount)).sum

/-- The categories that actually occur among the expense rows, listed
in taxonomy order. -/
def presentCats (ts : List Transaction) : List CategoryLabel :=
  allLabels.filter (fun c => ts.any (fun t => isExpense t && decide (catOf t = c)))

/-- Modelled from the spec: ordering of the category groups (section
4.2): descending by amount, ties broken alphabetically by category
name. -/
def catRank (a b : CategoryLabel × ℚ) : Prop :=
  b.2 < a.2 ∨ (a.2 = b.2 ∧ categoryName a.1 ≤ categoryName b.1)

instance : DecidableRel catRank := fun a b =>
  inferInstanceAs (Decidable (_ ∨ _))

/-- Modelled from the spec: the cap on top_categories (section 4.2
allows a cap of 5 to 10); 10 is the documented choice here, which is
at least the size of the closed taxonomy, as required for the section
3 invariant that the listed categories sum to total_spent. -/
def topCap : ℕ := 10

/-- The sorted per-category spending groups, capped at `topCap`. -/
def topCategories (ts : List Transaction) : List (CategoryLabel × ℚ) :=
  (((presentCats ts).map (fun c => (c, spentIn ts c))).insertionSort
      catRank).take topCap

/-- Modelled from the spec: the compact deterministic statistical
summary passed to the completion capability instead of the raw
transaction rows (section 4.2). -/
def summaryOf (ts : List Transaction) : String :=
  "Total spent " ++ toString (totalSpent ts) ++
    " across " ++ toString ts.length ++ " transactions. Top categories: " ++
    String.intercalate ", "
      ((topCategories ts).map
        (fun p => categoryName p.1 ++ " " ++ toString p.2))

/-- Modelled from the spec: the analysis report aggregate
(section 3). -/
structure AnalysisReport where
  total_spent : ℚ
  total_income : ℚ
  transaction_count : ℕ
  top_categories : List (CategoryLabel × ℚ)
  insights : List String
deriving DecidableEq, Repr

/-- Modelled from the spec: the analyze operation (section 4.2): sign
partition into the two totals, per-category grouping sorted and
capped, and 2 to 5 advisory sentences obtained by passing the compact
summary to the black-box text-completion capability; a batch with zero
transactions yields the all-zero report with empty lists instead of an
error. The optional monthly income participates in the contract but
the aggregation does not consume it. -/
def analyze (complete : String → List String)
    (ts : List Transaction) (monthly_income : Option ℚ) : AnalysisReport :=
  let _ := monthly_income
  { total_spent := totalSpent ts
    total_income := totalIncome ts
    transaction_count := ts.length
    top_categories := topCategories ts
    insights := if ts.isEmpty then [] else (complete (summaryOf ts)).take 5 }

end Analyzer

namespace Advisor

/-- Modelled from the spec: an immutable knowledge document (section
3): identity, text chunk, fixed-length embedding vector, and source. -/
structure KnowledgeDocument where
  id : ℕ
  text : String
  embedding : List ℚ
  source : String
deriving DecidableEq, Repr

/-- Modelled from the spec: the retrieval order (section 4.5):
descending similarity, ties broken by document id. The similarity of a
query against a document is the cosine similarity of their embeddings;
since the pretrained embedding function is consumed as a black-box
capability (section 1), the induced scoring is modelled as an injected
function from query and document to a rational similarity. -/
def docRank (a b : KnowledgeDocument × ℚ) : Prop :=
  b.2 < a.2 ∨ (a.2 = b.2 ∧ a.1.id ≤ b.1.id)

instance : DecidableRel docRank := fun a b =>
  inferInstanceAs (Decidable (_ ∨ _))

/-- Modelled from the spec: the search operation (section 4.5): score
every corpus document with the injected similarity, sort by descending
similarity with ties broken by document id, and return the top k. -/
def search (sim : String → KnowledgeDocument → ℚ)
    (corpus : List KnowledgeDocument) (query : String) (k : ℕ) :
    List (KnowledgeDocument × ℚ) :=
  ((corpus.map (fun d => (d, sim query d))).insertionSort docRank).take k

/-- A chat participant (section 3). -/
inductive Role where
  | user
  | assistant
deriving DecidableEq, Repr

/-- Modelled from the spec: one turn of a conversation (section 3). -/
structure ChatTurn where
  role : Role
  content : String
deriving DecidableEq, Repr

/-- The error kind surfaced when no completion capability is reachable
(section 7). -/
inductive ChatError where
  | serviceUnavailable
deriving DecidableEq, Repr

/-- Modelled from the spec: the fixed history window (section 4.5
suggests the last 10 turns). -/
def historyWindow : ℕ := 10

/-- Modelled from the spec: history truncation (section 4.5): keep
only the most recent `historyWindow` turns, dropping the oldest
first. -/
def truncateHistory (hist : List ChatTurn) : List ChatTurn :=
  hist.drop (hist.length - historyWindow)

/-- Text rendering of one conversation turn inside the prompt. -/
def renderTurn (t : ChatTurn) : String :=
  (match t.role with
   | .user => "User: "
   | .assistant => "Assistant: ") ++ t.content

/-- Modelled from the spec: the augmented prompt (section 4.5): system
instructions, then the retrieved snippets, then the truncated history,
then the new message. -/
def buildPrompt (snippets : List String) (hist : List ChatTurn)
    (message : String) : String :=
  String.intercalate "\n"
    (["You are a helpful financial advisor. Use the provided context."]
      ++ snippets ++ hist.map renderTurn ++ ["User: " ++ message])

/-- Modelled from the spec: the chat operation (section 4.5) with its
failure semantics (sections 4.5 and 7): the embedding capability and
the completion capability are injected options (None = unreachable).
With no completion capability the call fails with ServiceUnavailable;
with a completion capability but no embedding capability the retrieval
step is skipped and a direct completion call is made without retrieved
context; otherwise the top 3 snippets are retrieved. The reply is the
completion output verbatim, and the user message and the reply are
appended to the caller-held history. -/
def chat (sim : Option (String → KnowledgeDocument → ℚ))
    (complete : Option (String → String))
    (corpus : List KnowledgeDocument) (message : String)
    (hist : List ChatTurn) : Except ChatError (String × List ChatTurn) :=
  match complete with
  | none => .error .serviceUnavailable
  | some f =>
    let snippets :=
      match sim with
      | none => []
      | some s => (search s corpus message 3).map (fun p => p.1.text)
    let reply := f (buildPrompt snippets (truncateHistory hist) message)
    .ok (reply, hist ++ [⟨.user, message⟩, ⟨.assistant, reply⟩])

end Advisor

namespace Frontend

/-- HTTP method of a request issued by the API client. -/
inductive HttpMethod where
  | get
  | post
deriving DecidableEq, Repr

/-- The request functions exported by frontend/src/services/api.js:
the three members of budgetAPI, the four members of goalsAPI, the two
members of healthAPI, the two members of chatAPI, and healthCheck. -/
inductive ApiFunction where
  | budgetUploadCSV
  | budgetAnalyze
  | budgetCategorize
  | goalsCreate
  | goalsUpdate
  | goalsGet
  | goalsPrioritize
  | healthCalculate
  | healthGetBenchmarks
  | chatSendMessage
  | chatSearchKnowledge
  | healthCheck
deriving DecidableEq, Repr

/-- Method and path of each request function, embedded from
frontend/src/services/api.js; the goal id of the two per-goal routes
appears as the template placeholder of the source. -/
def endpoint : ApiFunction → HttpMethod × String
  | .budgetUploadCSV => (.post, "/api/budget/upload-csv")
  | .budgetAnalyze => (.post, "/api/budget/analyze")
  | .budgetCategorize => (.post, "/api/budget/categorize")
  | .goalsCreate => (.post, "/api/goals/create")
  | .goalsUpdate => (.post, "/api/goals/${goalId}/update")
  | .goalsGet => (.get, "/api/goals/${goalId}")
  | .goalsPrioritize => (.post, "/api/goals/prioritize")
  | .healthCalculate => (.post, "/api/health-score/calculate")
  | .healthGetBenchmarks => (.get, "/api/health-score/benchmark")
  | .chatSendMessage => (.post, "/api/chat/")
  | .chatSearchKnowledge => (.get, "/api/chat/knowledge-search")
  | .healthCheck => (.get, "/health")

/-- The logical operation surface of the spec (section 6), with the
create/update/get goal row split into its three operations. -/
inductive Operation where
  | uploadTransactions
  | analyzeTransactions
  | categorizeSingle
  | createGoal
  | updateGoal
  | getGoal
  | prioritizeGoals
  | computeHealthScore
  | getBenchmarks
  | chatMessage
  | searchKnowledge
  | livenessProbe
deriving DecidableEq, Repr

/-- The request function of api.js serving each logical operation of
the spec's operation surface. -/
def requestFunction : Operation → ApiFunction
  | .uploadTransactions => .budgetUploadCSV
  | .analyzeTransactions => .budgetAnalyze
  | .categorizeSingle => .budgetCategorize
  | .createGoal => .goalsCreate
  | .updateGoal => .goalsUpdate
  | .getGoal => .goalsGet
  | .prioritizeGoals => .goalsPrioritize
  | .computeHealthScore => .healthCalculate
  | .getBenchmarks => .healthGetBenchmarks
  | .chatMessage => .chatSendMessage
  | .searchKnowledge => .chatSearchKnowledge
  | .livenessProbe => .healthCheck

/-- The logical operation served by each request function; inverse
direction of the correspondence. -/
def operationOf : ApiFunction → Operation
  | .budgetUploadCSV => .uploadTransactions
  | .budgetAnalyze => .analyzeTransactions
  | .budgetCategorize => .categorizeSingle
  | .goalsCreate => .createGoal
  | .goalsUpdate => .updateGoal
  | .goalsGet => .getGoal
  | .goalsPrioritize => .prioritizeGoals
  | .healthCalculate => .computeHealthScore
  | .healthGetBenchmarks => .getBenchmarks
  | .chatSendMessage => .chatMessage
  | .chatSearchKnowledge => .searchKnowledge
  | .healthCheck => .livenessProbe

/-- The liveness-probe payload consumed by the Dashboard page: a
status and the active completion-provider identifier. -/
structure HealthStatus where
  status : String
  llm_provider : String
deriving DecidableEq, Repr

/-- The text nodes of the Dashboard system-status line, embedded from
the Dashboard page: the literal prefix, the status field, the literal
separator, and the llm_provider field. -/
def systemStatusLine (s : HealthStatus) : List String :=
  ["✅ System Status: ", s.status, " | LLM: ", s.llm_provider]

/-- A file chosen in the budget-analysis page's file picker. -/
structure SelectedFile where
  name : String
deriving DecidableEq, Repr

/-- The endsWith test of the source, expressed over the character
lists of the two strings. -/
def strEndsWith (s post : String) : Bool :=
  post.data.isSuffixOf s.data

/-- The component state of the BudgetAnalysis page: its four useState
cells. -/
structure BudgetPageState where
  file : Option SelectedFile
  error : Option String
  loading : Bool
  analysis : Option Analyzer.AnalysisReport
deriving DecidableEq, Repr

/-- handleFileChange of BudgetAnalysis.jsx: a selection is accepted
exactly when a file is present and its name ends with ".csv";
otherwise the stored file is reset and the validation error is set. -/
def handleFileChange (sel : Option SelectedFile) (st : BudgetPageState) :
    BudgetPageState :=
  match sel with
  | some f =>
    if strEndsWith f.name ".csv" then { st with file := some f, error := none }
    else { st with error := some "Please select a valid CSV file", file := none }
  | none => { st with error := some "Please select a valid CSV file", file := none }

/-- A backend call issued by the BudgetAnalysis page while
uploading. -/
inductive ApiCall where
  | uploadCSV (filename : String)
  | analyze
deriving DecidableEq, Repr

/-- handleUpload of BudgetAnalysis.jsx, as the synchronous state
transition plus the list of API calls it issues: with no file selected
it only sets an error and issues no call; with a file it enters the
loading state, clears the error, and issues the upload-then-analyze
sequence. -/
def handleUpload (st : BudgetPageState) : BudgetPageState × List ApiCall :=
  match st.file with
  | none => ({ st with error := some "Please select a file first" }, [])
  | some f =>
    ({ st with loading := true, error := none },
     [.uploadCSV f.name, .analyze])

end Frontend

end FinAssist

namespace FinAssist

theorem claimC7_analyze_empty (complete : String → List String)
    (mi : Option ℚ) :
    Analyzer.analyze complete [] mi =
      { total_spent := 0, total_income := 0, transaction_count := 0,
        top_categories := [], insights := [] } := rfl

theorem claimC9_api_surface :
    Function.Bijective Frontend.requestFunction ∧
    Frontend.requestFunction .livenessProbe = .healthCheck ∧
    Frontend.endpoint (Frontend.requestFunction .livenessProbe) =
      (.get, "/health") ∧
    ∀ s : Frontend.HealthStatus,
      s.status ∈ Frontend.systemStatusLine s ∧
      s.llm_provider ∈ Frontend.systemStatusLine s := by
  refine ⟨Function.bijective_iff_has_inverse.mpr
      ⟨Frontend.operationOf, fun o => by cases o <;> rfl,
        fun f => by cases f <;> rfl⟩, rfl, rfl, fun s => ?_⟩
  constructor <;> simp [Frontend.systemStatusLine]

theorem claimC10_csv_validation (sel : Option Frontend.SelectedFile)
    (st : Frontend.BudgetPageState) :
    (∀ f, sel = some f → Frontend.strEndsWith f.name ".csv" = true →
        Frontend.handleFileChange sel st =
          { st with file := some f, error := none }) ∧
    (∀ f, sel = some f → Frontend.strEndsWith f.name ".csv" = false →
        Frontend.handleFileChange sel st =
          { st with file := none,
                    error := some "Please select a valid CSV file" }) ∧
    (sel = none →
        Frontend.handleFileChange sel st =
          { st with file := none,
                    error := some "Please select a valid CSV file" }) ∧
    (st.file = none →
        Frontend.handleUpload st =
          ({ st with error := some "Please select a file first" }, [])) := by
  refine ⟨fun f hf hcsv => ?_, fun f hf hcsv => ?_, fun hf => ?_, fun hf => ?_⟩
  · subst hf; simp [Frontend.handleFileChange, hcsv]
  · subst hf; simp [Frontend.handleFileChange, hcsv]
  · subst hf; simp [Frontend.handleFileChange]
  · unfold Frontend.handleUpload; rw [hf]

theorem claimC10_witness :
    (Frontend.handleFileChange (some ⟨"data.txt"⟩)
        ⟨some ⟨"old.csv"⟩, none, false, none⟩ =
      ⟨none, some "Please select a valid CSV file", false, none⟩) ∧
    Frontend.handleUpload ⟨none, none, false, none⟩ =
      (⟨none, some "Please select a file first", false, none⟩, []) :=
  ⟨(claimC10_csv_validation (some ⟨"data.txt"⟩)
        ⟨some ⟨"old.csv"⟩, none, false, none⟩).2.1 ⟨"data.txt"⟩ rfl (by decide),
   (claimC10_csv_validation none ⟨none, none, false, none⟩).2.2.2 rfl⟩

end FinAssist

namespace FinAssist

/-- The derived label reads only the description and the amount of a
transaction, never its category field. -/
theorem deriveLabel_update (llm : List Char → Option CategoryLabel)
    (t : Transaction) (c : Option CategoryLabel) :
    deriveLabel llm { t with category := c } = deriveLabel llm t := rfl

/-- Re-categorizing an already categorized transaction is a fixed
point. -/
theorem categorizeOne_idem (llm : List Char → Option CategoryLabel)
    (t : Transaction) :
    categorizeOne llm (categorizeOne llm t) = categorizeOne llm t := by
  simp [categorizeOne, deriveLabel_update]

/-- C4: categorize is deterministic and idempotent: re-running it on
the output of a prior run yields the identical transaction list, and
the derived label of a transaction depends only on its description and
the sign of its amount, never on external mutable state or on the
stored category. -/
theorem claimC4_categorize_idempotent
    (llm : List Char → Option CategoryLabel) (ts : List Transaction)
    (t t' : Transaction) (hd : t.description = t'.description)
    (hs : 0 < t.amount ↔ 0 < t'.amount) :
    categorize llm (categorize llm ts) = categorize llm ts ∧
    deriveLabel llm t = deriveLabel llm t' := by
  constructor
  · simp [categorize, List.map_map, Function.comp_def, categorizeOne_idem]
  · unfold deriveLabel
    rw [hd]
    cases findRule (normalize t'.description) with
    | some c => rfl
    | none =>
      by_cases hp : 0 < t.amount
      · rw [if_pos hp, if_pos (hs.mp hp)]
      · rw [if_neg hp, if_neg (fun h => hp (hs.mpr h))]

theorem claimC4_witness :
    categorize (fun _ => none)
        (categorize (fun _ => none)
          [⟨"2024-01-15", "Starbucks", -11/2, none⟩]) =
      categorize (fun _ => none)
        [⟨"2024-01-15", "Starbucks", -11/2, none⟩] ∧
    deriveLabel (fun _ => none) ⟨"2024-01-15", "Starbucks", -11/2, none⟩ =
      deriveLabel (fun _ => none)
        ⟨"2024-02-01", "Starbucks", -3, some CategoryLabel.other⟩ :=
  claimC4_categorize_idempotent (fun _ => none)
    [⟨"2024-01-15", "Starbucks", -11/2, none⟩]
    ⟨"2024-01-15", "Starbucks", -11/2, none⟩
    ⟨"2024-02-01", "Starbucks", -3, some CategoryLabel.other⟩
    rfl (by constructor <;> (intro h; exact absurd h (by norm_num)))

/-- C5: categorize keeps every row in place with its date, description
and amount unchanged, gives every row a non-null category from the
closed enumeration, and labels a row Other when no keyword rule
matches, the amount is not positive, and the classification capability
yields nothing. -/
theorem claimC5_categorize_total (llm : List Char → Option CategoryLabel)
    (ts : List Transaction) :
    (categorize llm ts).length = ts.length ∧
    List.Forall₂
      (fun t u =>
        u.date = t.date ∧ u.description = t.description ∧
        u.amount = t.amount ∧ u.category.isSome = true ∧
        (findRule (normalize t.description) = none → t.amount ≤ 0 →
          llm (normalize t.description) = none →
          u.category = some CategoryLabel.other))
      ts (categorize llm ts) := by
  refine ⟨by simp [categorize], ?_⟩
  induction ts with
  | nil => exact List.Forall₂.nil
  | cons t ts ih =>
    refine List.Forall₂.cons ⟨rfl, rfl, rfl, rfl, fun h1 h2 h3 => ?_⟩ ih
    simp [categorizeOne, deriveLabel, h1, h3, not_lt.mpr h2]

/-- C8: chat fails, and fails with ServiceUnavailable, exactly when the
completion capability is unreachable; with a reachable completion
capability but no embedding capability it degrades to a direct
completion call on the context-free prompt and succeeds, appending the
exchange to the history. -/
theorem claimC8_chat_failure
    (sim : Option (String → Advisor.KnowledgeDocument → ℚ))
    (complete : Option (String → String))
    (corpus : List Advisor.KnowledgeDocument) (msg : String)
    (hist : List Advisor.ChatTurn) :
    (Advisor.chat sim complete corpus msg hist =
        .error .serviceUnavailable ↔ complete = none) ∧
    (∀ f, complete = some f → sim = none →
      Advisor.chat sim complete corpus msg hist =
        .ok (f (Advisor.buildPrompt [] (Advisor.truncateHistory hist) msg),
             hist ++
               [⟨.user, msg⟩,
                ⟨.assistant,
                 f (Advisor.buildPrompt [] (Advisor.truncateHistory hist)
                      msg)⟩])) := by
  constructor
  · cases complete <;> simp [Advisor.chat]
  · rintro f rfl rfl
    rfl

theorem claimC8_witness :
    Advisor.chat none (some (fun _ => "Build an emergency fund.")) []
        "How do I start?" [] =
      .ok ("Build an emergency fund.",
           [⟨.user, "How do I start?"⟩,
            ⟨.assistant, "Build an emergency fund."⟩]) :=
  (claimC8_chat_failure none (some (fun _ => "Build an emergency fund."))
      [] "How do I start?" []).2
    (fun _ => "Build an emergency fund.") rfl rfl

end FinAssist

namespace FinAssist

theorem clamp_nonneg (x : ℚ) : 0 ≤ clamp x :=
  le_min (by norm_num) (le_max_left 0 x)

theorem clamp_le (x : ℚ) : clamp x ≤ 100 := min_le_left 100 _

theorem savingsRateScore_mem (income expenses : ℚ) :
    0 ≤ Scorer.savingsRateScore income expenses ∧
      Scorer.savingsRateScore income expenses ≤ 100 := by
  unfold Scorer.savingsRateScore
  split
  · norm_num
  · exact ⟨clamp_nonneg _, clamp_le _⟩

theorem debtScore_mem (income debt : ℚ) :
    0 ≤ Scorer.debtScore income debt ∧ Scorer.debtScore income debt ≤ 100 := by
  unfold Scorer.debtScore
  split
  · norm_num
  · exact ⟨clamp_nonneg _, clamp_le _⟩

theorem emergencyScore_mem (months : ℚ) :
    0 ≤ Scorer.emergencyScore months ∧ Scorer.emergencyScore months ≤ 100 :=
  ⟨clamp_nonneg _, clamp_le _⟩

theorem disciplineScore_mem (income expenses : ℚ) :
    0 ≤ Scorer.disciplineScore income expenses ∧
      Scorer.disciplineScore income expenses ≤ 100 := by
  unfold Scorer.disciplineScore
  split
  · norm_num
  · exact ⟨clamp_nonneg _, clamp_le _⟩

/-- C1: for every finite non-negative input combination the score
operation returns a report whose integer score lies between 0 and 100
inclusive, and with zero income every income-normalized sub-score is
the sentinel 0 (the emergency-fund sub-score is the only one not
normalized by income). -/
theorem claimC1_score_bounds (income expenses savings debt months : ℚ)
    (hi : 0 ≤ income) (he : 0 ≤ expenses) (hs : 0 ≤ savings)
    (hd : 0 ≤ debt) (hm : 0 ≤ months) :
    (0 ≤ (Scorer.score income expenses savings debt months).score ∧
      (Scorer.score income expenses savings debt months).score ≤ 100) ∧
    (income = 0 →
      Scorer.savingsRateScore income expenses = 0 ∧
      Scorer.debtScore income debt = 0 ∧
      Scorer.disciplineScore income expenses = 0) := by
  constructor
  · obtain ⟨s1l, s1u⟩ := savingsRateScore_mem income expenses
    obtain ⟨s2l, s2u⟩ := debtScore_mem income debt
    obtain ⟨s3l, s3u⟩ := emergencyScore_mem months
    obtain ⟨s4l, s4u⟩ := disciplineScore_mem income expenses
    have hcl : (0 : ℚ) ≤
        3/10 * Scorer.savingsRateScore income expenses +
          1/4 * Scorer.debtScore income debt +
          1/4 * Scorer.emergencyScore months +
          1/5 * Scorer.disciplineScore income expenses := by linarith
    have hcu :
        3/10 * Scorer.savingsRateScore income expenses +
          1/4 * Scorer.debtScore income debt +
          1/4 * Scorer.emergencyScore months +
          1/5 * Scorer.disciplineScore income expenses ≤ (100 : ℚ) := by
      linarith
    have hsc : (Scorer.score income expenses savings debt months).score =
        round (3/10 * Scorer.savingsRateScore income expenses +
          1/4 * Scorer.debtScore income debt +
          1/4 * Scorer.emergencyScore months +
          1/5 * Scorer.disciplineScore income expenses) := rfl
    rw [hsc]
    constructor
    · rw [round_eq]
      exact Int.le_floor.mpr (by push_cast; linarith)
    · rw [round_eq]
      have h101 :
          (3/10 * Scorer.savingsRateScore income expenses +
            1/4 * Scorer.debtScore income debt +
            1/4 * Scorer.emergencyScore months +
            1/5 * Scorer.disciplineScore income expenses) + 1/2 <
            ((101 : ℤ) : ℚ) := by push_cast; linarith
      exact Int.lt_add_one_iff.mp (Int.floor_lt.mpr h101)
  · intro h0
    simp [Scorer.savingsRateScore, Scorer.debtScore,
      Scorer.disciplineScore, h0]

theorem claimC1_witness :
    (0 ≤ (Scorer.score 5000 3500 15000 5000 (43/10)).score ∧
      (Scorer.score 5000 3500 15000 5000 (43/10)).score ≤ 100) ∧
    ((5000 : ℚ) = 0 →
      Scorer.savingsRateScore 5000 3500 = 0 ∧
      Scorer.debtScore 5000 5000 = 0 ∧
      Scorer.disciplineScore 5000 3500 = 0) :=
  claimC1_score_bounds 5000 3500 15000 5000 (43/10) (by norm_num)
    (by norm_num) (by norm_num) (by norm_num) (by norm_num)

end FinAssist

namespace FinAssist

theorem requiredMonthly_nonneg (now : ℤ) (g : Planner.Goal) :
    0 ≤ Planner.requiredMonthly now g := by
  unfold Planner.requiredMonthly Planner.gap
  refine div_nonneg (le_max_right _ 0) ?_
  have h1 : (1 : ℤ) ≤ max (Planner.monthsRemaining now g) 1 := le_max_right _ _
  exact_mod_cast le_trans zero_le_one h1

theorem allocate_mem_le_required (now : ℤ) (gs : List Planner.Goal) :
    ∀ (b : ℚ) (p : Planner.PlannedGoal), p ∈ Planner.allocate now gs b →
      p.recommended_monthly_contribution ≤ Planner.requiredMonthly now p.goal := by
  induction gs with
  | nil => intro b p hp; simp [Planner.allocate] at hp
  | cons g gs ih =>
    intro b p hp
    simp only [Planner.allocate] at hp
    rcases List.mem_cons.mp hp with h | h
    · subst h; exact min_le_left _ _
    · exact ih _ p h

theorem allocate_sum_le (now : ℤ) (gs : List Planner.Goal) :
    ∀ b : ℚ, 0 ≤ b →
      ((Planner.allocate now gs b).map
          (·.recommended_monthly_contribution)).sum ≤ b := by
  induction gs with
  | nil => intro b hb; simpa [Planner.allocate] using hb
  | cons g gs ih =>
    intro b hb
    simp only [Planner.allocate, List.map_cons, List.sum_cons]
    have hc : min (Planner.requiredMonthly now g) b ≤ b := min_le_right _ _
    have h := ih (b - min (Planner.requiredMonthly now g) b) (by linarith)
    linarith

theorem allocate_length (now : ℤ) (gs : List Planner.Goal) :
    ∀ b : ℚ, (Planner.allocate now gs b).length = gs.length := by
  induction gs with
  | nil => intro b; simp [Planner.allocate]
  | cons g gs ih =>
    intro b
    simp only [Planner.allocate, List.length_cons, ih]

theorem plan_length (now : ℤ) (goals : List Planner.Goal) (b : ℚ) :
    (Planner.plan now goals b).length = goals.length := by
  unfold Planner.plan
  rw [allocate_length,
    List.Perm.length_eq (List.perm_insertionSort (Planner.goalRank now) goals)]

theorem allocate_get_eq (now : ℤ) (gs : List Planner.Goal) :
    ∀ (b : ℚ) (i : ℕ) (h : i < (Planner.allocate now gs b).length),
      ((Planner.allocate now gs b).get ⟨i, h⟩).recommended_monthly_contribution =
        min (Planner.requiredMonthly now
              (((Planner.allocate now gs b).get ⟨i, h⟩).goal))
            (b - (((Planner.allocate now gs b).take i).map
                (·.recommended_monthly_contribution)).sum) := by
  induction gs with
  | nil => intro b i h; simp [Planner.allocate] at h
  | cons g gs ih =>
    intro b i h
    match i with
    | 0 => simp [Planner.allocate]
    | Nat.succ j =>
      simp only [Planner.allocate, List.get_cons_succ, List.take_succ_cons,
        List.map_cons, List.sum_cons] at h ⊢
      rw [ih (b - min (Planner.requiredMonthly now g) b) j
        (by simpa [Planner.allocate] using h)]
      ring_nf

/-- C2: for a non-negative available monthly savings budget, the plan
operation gives each goal, in priority order, exactly min(required
monthly amount, remaining budget), hence never more than its required
monthly amount; the recommended contributions sum to at most the
available monthly savings; and any goal reached with zero remaining
budget receives zero. -/
theorem claimC2_plan_allocation (now : ℤ) (goals : List Planner.Goal)
    (budget : ℚ) (hb : 0 ≤ budget) :
    (∀ p ∈ Planner.plan now goals budget,
        p.recommended_monthly_contribution ≤
          Planner.requiredMonthly now p.goal) ∧
    ((Planner.plan now goals budget).map
        (·.recommended_monthly_contribution)).sum ≤ budget ∧
    (∀ (i : ℕ) (h : i < (Planner.plan now goals budget).length),
        ((Planner.plan now goals budget).get
            ⟨i, h⟩).recommended_monthly_contribution =
          min (Planner.requiredMonthly now
                (((Planner.plan now goals budget).get ⟨i, h⟩).goal))
              (budget - (((Planner.plan now goals budget).take i).map
                  (·.recommended_monthly_contribution)).sum)) ∧
    (∀ (i : ℕ) (h : i < (Planner.plan now goals budget).length),
        budget - (((Planner.plan now goals budget).take i).map
            (·.recommended_monthly_contribution)).sum = 0 →
        ((Planner.plan now goals budget).get
            ⟨i, h⟩).recommended_monthly_contribution = 0) := by
  refine ⟨fun p hp => allocate_mem_le_required now _ _ p hp,
    allocate_sum_le now _ _ hb, fun i h => allocate_get_eq now _ _ i h,
    fun i h hz => ?_⟩
  unfold Planner.plan at h hz ⊢
  rw [allocate_get_eq now _ _ i h, hz]
  exact min_eq_right (requiredMonthly_nonneg now _)

theorem claimC2_witness :
    ((Planner.plan 0
          [⟨1, "Emergency Fund", 10000, 1000, 6⟩,
           ⟨2, "Vacation", 4000, 2000, 4⟩] 1000).map
        (·.recommended_monthly_contribution)).sum ≤ 1000 ∧
    ((Planner.plan 0
          [⟨1, "Emergency Fund", 10000, 1000, 6⟩,
           ⟨2, "Vacation", 4000, 2000, 4⟩] 0).get
        ⟨0, by rw [plan_length]; decide⟩).recommended_monthly_contribution
      = 0 :=
  ⟨(claimC2_plan_allocation 0
        [⟨1, "Emergency Fund", 10000, 1000, 6⟩,
         ⟨2, "Vacation", 4000, 2000, 4⟩] 1000 (by norm_num)).2.1,
   (claimC2_plan_allocation 0
        [⟨1, "Emergency Fund", 10000, 1000, 6⟩,
         ⟨2, "Vacation", 4000, 2000, 4⟩] 0 le_rfl).2.2.2 0
     (by rw [plan_length]; decide) (by simp)⟩

end FinAssist

namespace FinAssist

namespace Advisor

instance : IsTotal (KnowledgeDocument × ℚ) docRank := by
  constructor
  intro a b
  rcases lt_trichotomy a.2 b.2 with h | h | h
  · exact Or.inr (Or.inl h)
  · rcases le_total a.1.id b.1.id with hid | hid
    · exact Or.inl (Or.inr ⟨h, hid⟩)
    · exact Or.inr (Or.inr ⟨h.symm, hid⟩)
  · exact Or.inl (Or.inl h)

instance : IsTrans (KnowledgeDocument × ℚ) docRank := by
  constructor
  intro a b c hab hbc
  rcases hab with h1 | ⟨h1, hid1⟩
  · rcases hbc with h2 | ⟨h2, _⟩
    · exact Or.inl (h2.trans h1)
    · exact Or.inl (h2 ▸ h1)
  · rcases hbc with h2 | ⟨h2, hid2⟩
    · exact Or.inl (h1 ▸ h2)
    · exact Or.inr ⟨h1.trans h2, hid1.trans hid2⟩

end Advisor

/-- C6: search returns at most k results, never more than the corpus
size, sorted by non-increasing similarity with equal-similarity ties
broken by non-decreasing document id. -/
theorem claimC6_search_ranking (sim : String → Advisor.KnowledgeDocument → ℚ)
    (corpus : List Advisor.KnowledgeDocument) (q : String) (k : ℕ) :
    (Advisor.search sim corpus q k).length ≤ k ∧
    (Advisor.search sim corpus q k).length ≤ corpus.length ∧
    List.Pairwise
      (fun a b : Advisor.KnowledgeDocument × ℚ =>
        b.2 ≤ a.2 ∧ (a.2 = b.2 → a.1.id ≤ b.1.id))
      (Advisor.search sim corpus q k) := by
  unfold Advisor.search
  refine ⟨?_, ?_, ?_⟩
  · simp only [List.length_take]
    exact min_le_left k _
  · have hlen :
        ((corpus.map (fun d => (d, sim q d))).insertionSort
            Advisor.docRank).length = corpus.length := by
      rw [List.Perm.length_eq
        (List.perm_insertionSort Advisor.docRank _), List.length_map]
    simp only [List.length_take, hlen]
    exact min_le_right _ _
  · have hs :
        List.Pairwise Advisor.docRank
          ((corpus.map (fun d => (d, sim q d))).insertionSort
            Advisor.docRank) :=
      List.sorted_insertionSort Advisor.docRank _
    have ht := hs.sublist (List.take_sublist k _)
    refine ht.imp ?_
    intro a b hab
    rcases hab with h | ⟨h, hid⟩
    · exact ⟨h.le, fun he => absurd (he ▸ h) (lt_irrefl _)⟩
    · exact ⟨le_of_eq h.symm, fun _ => hid⟩

end FinAssist

namespace FinAssist

namespace Analyzer

instance : IsTotal (CategoryLabel × ℚ) catRank := by
  constructor
  intro a b
  rcases lt_trichotomy a.2 b.2 with h | h | h
  · exact Or.inr (Or.inl h)
  · rcases le_total (categoryName a.1) (categoryName b.1) with hn | hn
    · exact Or.inl (Or.inr ⟨h, hn⟩)
    · exact Or.inr (Or.inr ⟨h.symm, hn⟩)
  · exact Or.inl (Or.inl h)

instance : IsTrans (CategoryLabel × ℚ) catRank := by
  constructor
  intro a b c hab hbc
  rcases hab with h1 | ⟨h1, hn1⟩
  · rcases hbc with h2 | ⟨h2, _⟩
    · exact Or.inl (h2.trans h1)
    · exact Or.inl (h2 ▸ h1)
  · rcases hbc with h2 | ⟨h2, hn2⟩
    · exact Or.inl (h1 ▸ h2)
    · exact Or.inr ⟨h1.trans h2, hn1.trans hn2⟩

theorem spentIn_cons (t : Transaction) (ts : List Transaction)
    (c : CategoryLabel) :
    spentIn (t :: ts) c =
      (if isExpense t && decide (catOf t = c) then -t.amount else 0) +
        spentIn ts c := by
  unfold spentIn
  cases h : (isExpense t && decide (catOf t = c)) <;>
    simp [List.filter_cons, h]

theorem totalSpent_cons (t : Transaction) (ts : List Transaction) :
    totalSpent (t :: ts) =
      (if isExpense t then -t.amount else 0) + totalSpent ts := by
  unfold totalSpent
  cases h : isExpense t <;> simp [List.filter_cons, h]

theorem sum_if_single (c0 : CategoryLabel) (x : ℚ) (f : CategoryLabel → ℚ) :
    (allLabels.map (fun c => (if c0 = c then x else 0) + f c)).sum =
      x + (allLabels.map f).sum := by
  cases c0 <;> simp [allLabels] <;> ring

theorem sum_spentIn_allLabels (ts : List Transaction) :
    (allLabels.map (spentIn ts)).sum = totalSpent ts := by
  induction ts with
  | nil => simp [spentIn, totalSpent, allLabels]
  | cons t ts ih =>
    have hfun : spentIn (t :: ts) = fun c =>
        (if isExpense t && decide (catOf t = c) then -t.amount else 0) +
          spentIn ts c :=
      funext (spentIn_cons t ts)
    rw [hfun, totalSpent_cons]
    cases het : isExpense t with
    | false => simpa using ih
    | true =>
      simp only [Bool.true_and, decide_eq_true_eq]
      rw [sum_if_single (catOf t) (-t.amount) (spentIn ts), ih]
      simp

theorem sum_filter_of_zero (p : CategoryLabel → Bool) (f : CategoryLabel → ℚ)
    (l : List CategoryLabel) (h : ∀ c ∈ l, p c = false → f c = 0) :
    ((l.filter p).map f).sum = (l.map f).sum := by
  induction l with
  | nil => rfl
  | cons c l ih =>
    rw [List.filter_cons]
    have hrest := ih (fun d hd => h d (List.mem_cons_of_mem c hd))
    split
    · simp only [List.map_cons, List.sum_cons, hrest]
    · simp only [List.map_cons, List.sum_cons, hrest]
      rw [h c (List.mem_cons_self c l) (by simp_all), zero_add]

theorem spentIn_eq_zero_of_absent (ts : List Transaction) (c : CategoryLabel)
    (h : ts.any (fun t => isExpense t && decide (catOf t = c)) = false) :
    spentIn ts c = 0 := by
  unfold spentIn
  have : ts.filter (fun t => isExpense t && decide (catOf t = c)) = [] :=
    List.filter_eq_nil_iff.mpr (by simpa using List.any_eq_false.mp h)
  rw [this]
  rfl

theorem sum_presentCats (ts : List Transaction) :
    ((presentCats ts).map (spentIn ts)).sum = totalSpent ts := by
  unfold presentCats
  rw [sum_filter_of_zero _ _ _
      (fun c _ hc => spentIn_eq_zero_of_absent ts c hc),
    sum_spentIn_allLabels]

/-- C3: in every analysis report the amounts listed under
top_categories sum exactly to total_spent. -/
theorem claimC3_top_categories_sum (complete : String → List String)
    (ts : List Transaction) (mi : Option ℚ) :
    ((analyze complete ts mi).top_categories.map Prod.snd).sum =
      (analyze complete ts mi).total_spent := by
  have htop : (analyze complete ts mi).top_categories = topCategories ts := rfl
  have htot : (analyze complete ts mi).total_spent = totalSpent ts := rfl
  rw [htop, htot]
  unfold topCategories
  have hlen :
      (((presentCats ts).map (fun c => (c, spentIn ts c))).insertionSort
          catRank).length ≤ topCap := by
    rw [List.Perm.length_eq (List.perm_insertionSort catRank _),
      List.length_map]
    calc (presentCats ts).length ≤ allLabels.length :=
          List.length_filter_le _ _
      _ ≤ topCap := by norm_num [allLabels, topCap]
  rw [List.take_of_length_le hlen]
  have hperm :
      ((((presentCats ts).map (fun c => (c, spentIn ts c))).insertionSort
          catRank).map Prod.snd).sum =
        (((presentCats ts).map (fun c => (c, spentIn ts c))).map
            Prod.snd).sum :=
    List.Perm.sum_eq
      ((List.perm_insertionSort catRank _).map Prod.snd)
  rw [hperm, List.map_map]
  simpa [Function.comp_def] using sum_presentCats ts

end Analyzer

end FinAssist
